import Mathlib

/-!
Verification of the car-dealership marketplace core (src/main.py).

The embedding is shallow: Python objects become Lean structures, mutation
becomes explicit state passing, and an operation that can raise one of the
expected business exceptions returns an `Except`.  Monetary values are
modelled as `Int` (the program only adds, subtracts and compares them).
The per-dealership and per-buyer locks serialize `sell_car` and
`decrease_balance`, so a group of concurrent calls is modelled as the calls
executed in an arbitrary serial order.
-/

namespace CarMarket

/-- The expected, recoverable failures of the transaction core:
`insufficientFunds` models the `InsufficientFunds` exception and
`notFound` models the `IndexError` raised for an invalid selector. -/
inductive SellError where
  | insufficientFunds
  | notFound
deriving DecidableEq, Repr

/-- A `Car`: id, descriptive fields and price, all set at construction
(`Car.__init__` stores them verbatim, with no validation). -/
structure Car where
  id : Nat
  make : String
  model : String
  price : Int
deriving DecidableEq, Repr

/-- `Car.__init__(make, model, price)`: stores every field verbatim.  The id
drawn from the class counter is passed in explicitly. -/
def Car.init (id : Nat) (make model : String) (price : Int) : Car :=
  { id := id, make := make, model := model, price := price }

/-- A `Buyer`: id, name and mutable balance. -/
structure Buyer where
  id : Nat
  name : String
  balance : Int
deriving DecidableEq, Repr

/-- `Buyer.__init__(name, balance)`: stores `name` and `balance` verbatim in
the backing fields `_name` and `_balance`, bypassing the property setters,
with no validation.  The id drawn from the class counter is passed in
explicitly. -/
def Buyer.init (id : Nat) (name : String) (balance : Int) : Buyer :=
  { id := id, name := name, balance := balance }

/-- The `name` property setter: rejects an empty string with `ValueError`
(the `isinstance` check is subsumed by the `String` type). -/
def Buyer.setName (b : Buyer) (value : String) : Except String Buyer :=
  if value = "" then .error "Name cannot be empty"
  else .ok { b with name := value }

/-- The `balance` property setter: rejects a negative value with
`ValueError` (the `isinstance` check is subsumed by the `Int` type). -/
def Buyer.setBalance (b : Buyer) (value : Int) : Except String Buyer :=
  if value < 0 then .error "Balance cannot be negative"
  else .ok { b with balance := value }

/-- `Buyer.decrease_balance(amount)`: raises `InsufficientFunds` when
`amount > self._balance`, otherwise `self._balance -= amount`. -/
def Buyer.decrease_balance (b : Buyer) (amount : Int) : Except SellError Buyer :=
  if amount > b.balance then .error .insufficientFunds
  else .ok { b with balance := b.balance - amount }

/-- A `Contract` records the buyer and the car of one completed sale (the
id counter and the timestamp are peripheral and not modelled). -/
structure Contract where
  buyer : Buyer
  car : Car
deriving DecidableEq, Repr

/-- A `Dealership` is its ordered list `_cars` of available cars. -/
structure Dealership where
  cars : List Car
deriving DecidableEq, Repr

/-- Python list-index resolution for a list of length `n`: a negative index
`i` counts from the end as `i + n`; the access raises `IndexError` (here:
`none`) unless the resolved position lies in `[0, n)`. -/
def pyResolve (n : Nat) (i : Int) : Int :=
  if i < 0 then i + (n : Int) else i

/-- The bounds check of a Python list access for a list of length `n`:
`none` models the raised `IndexError`. -/
def pyIndex (n : Nat) (i : Int) : Option Nat :=
  if 0 ≤ pyResolve n i ∧ pyResolve n i < (n : Int) then
    some (pyResolve n i).toNat
  else none

/-- `Dealership.sell_car(index, buyer)` under the dealership lock:
`car = self._cars[index]` (an `IndexError` is re-raised, modelled as
`notFound`); if `buyer.balance >= car.price` then
`buyer.decrease_balance(car.price)`, `self._cars.pop(index)` and a
`Contract(buyer, car)` is returned, else `InsufficientFunds` is raised. -/
def Dealership.sell_car (d : Dealership) (index : Int) (buyer : Buyer) :
    Except SellError (Dealership × Buyer × Contract) :=
  match pyIndex d.cars.length index with
  | none => .error .notFound
  | some j =>
    match d.cars.get? j with
    | none => .error .notFound
    | some car =>
      if buyer.balance ≥ car.price then
        match buyer.decrease_balance car.price with
        | .error e => .error e
        | .ok buyer2 => .ok (⟨d.cars.eraseIdx j⟩, buyer2, ⟨buyer2, car⟩)
      else .error .insufficientFunds

/-- `Dealership.cars_by_price(min_price)`, body of the generator: keep the
cars with `car.price >= min_price`, in list order. -/
def carsByPriceGo (min_price : Int) : List Car → List Car
  | [] => []
  | c :: rest =>
    if c.price ≥ min_price then c :: carsByPriceGo min_price rest
    else carsByPriceGo min_price rest

/-- `Dealership.cars_by_price(min_price)`: the generator run to a list. -/
def Dealership.cars_by_price (d : Dealership) (min_price : Int) : List Car :=
  carsByPriceGo min_price d.cars

/-- A sequence of `decrease_balance` calls on one buyer; a call that raises
leaves the balance unchanged and the sequence continues. -/
def runDebits : Buyer → List Int → Buyer
  | b, [] => b
  | b, a :: rest =>
    match b.decrease_balance a with
    | .ok b2 => runDebits b2 rest
    | .error _ => runDebits b rest

/-- A sequence of `sell_car` calls (selector and buyer per call) on one
dealership, collecting the final dealership state and the contracts
produced; a failed call changes nothing. -/
def runSellsC : Dealership → List (Int × Buyer) → Dealership × List Contract
  | d, [] => (d, [])
  | d, (i, b) :: rest =>
    match d.sell_car i b with
    | .ok (d2, _, ct) =>
      let r := runSellsC d2 rest
      (r.1, ct :: r.2)
    | .error _ => runSellsC d rest

/-- N `sell_car` calls at selector 0, one per buyer, executed in the given
serial order (the dealership lock serializes concurrent calls); records
each caller's resulting buyer state and outcome. -/
def runRace : Dealership → List Buyer →
    Dealership × List (Buyer × Except SellError Contract)
  | d, [] => (d, [])
  | d, b :: rest =>
    match d.sell_car 0 b with
    | .ok (d2, b2, ct) =>
      let r := runRace d2 rest
      (r.1, (b2, .ok ct) :: r.2)
    | .error e =>
      let r := runRace d rest
      (r.1, (b, .error e) :: r.2)

/-- The demo Tesla from the program's main block. -/
def teslaS : Car := Car.init 1 "Tesla" "Model S" 3000000

/-- The demo Ford from the program's main block. -/
def fordFiesta : Car := Car.init 2 "Ford" "Fiesta" 500000

/-- The demo buyer Alexander from the program's main block. -/
def alexander : Buyer := Buyer.init 1 "Alexander" 2500000

/-- The demo buyer Maria from the program's main block. -/
def maria : Buyer := Buyer.init 2 "Maria" 3500000

/-- The demo buyer Ivan from the program's main block. -/
def ivan : Buyer := Buyer.init 3 "Ivan" 500000

/-! ### Basic lemmas about index resolution and `sell_car` -/

theorem pyIndex_some_lt {n : Nat} {i : Int} {j : Nat}
    (h : pyIndex n i = some j) : j < n := by
  unfold pyIndex pyResolve at h
  by_cases h0 : i < 0
  · rw [if_pos h0] at h
    split_ifs at h with hc
    simp only [Option.some.injEq] at h
    omega
  · rw [if_neg h0] at h
    split_ifs at h with hc
    simp only [Option.some.injEq] at h
    omega

theorem pyIndex_none_of_le {n m : Nat} {i : Int}
    (h : pyIndex n i = none) (hmn : m ≤ n) : pyIndex m i = none := by
  unfold pyIndex pyResolve at h ⊢
  by_cases h0 : i < 0
  · rw [if_pos h0] at h ⊢
    split_ifs at h with hc
    rw [if_neg (by omega)]
  · rw [if_neg h0] at h ⊢
    split_ifs at h with hc
    rw [if_neg (by omega)]

theorem sell_car_eq_ok {d : Dealership} {i : Int} {b : Buyer} {j : Nat}
    {car : Car} (hj : pyIndex d.cars.length i = some j)
    (hcar : d.cars.get? j = some car) (hb : car.price ≤ b.balance) :
    d.sell_car i b = .ok (⟨d.cars.eraseIdx j⟩,
      { b with balance := b.balance - car.price },
      ⟨{ b with balance := b.balance - car.price }, car⟩) := by
  unfold Dealership.sell_car
  simp only [hj, hcar]
  rw [if_pos (show b.balance ≥ car.price from hb)]
  unfold Buyer.decrease_balance
  rw [if_neg (show ¬ car.price > b.balance by omega)]

/-- Claim C1: if the selector resolves to position `j` holding `car` and the
buyer's balance covers `car.price`, then `sell_car` succeeds, returning the
dealership without position `j`, the buyer debited by `car.price`, and a
contract referencing that debited buyer and that car; the inventory length
decreases by exactly one. -/
theorem sell_car_success (d : Dealership) (i : Int) (b : Buyer)
    (j : Nat) (car : Car)
    (hj : pyIndex d.cars.length i = some j)
    (hcar : d.cars.get? j = some car)
    (hb : car.price ≤ b.balance) :
    d.sell_car i b = .ok (⟨d.cars.eraseIdx j⟩,
      { b with balance := b.balance - car.price },
      ⟨{ b with balance := b.balance - car.price }, car⟩) ∧
    (d.cars.eraseIdx j).length + 1 = d.cars.length := by
  have hlt : j < d.cars.length := pyIndex_some_lt hj
  exact ⟨sell_car_eq_ok hj hcar hb, List.length_eraseIdx_add_one hlt⟩

/-- Witness for C1: the spec's Scenario B, a car priced 500000 bought by a
buyer with balance 3500000, leaving balance 3000000 and an empty lot. -/
theorem sell_car_success_witness :
    pyIndex 1 0 = some 0 ∧
    [Car.init 2 "Ford" "Fiesta" 500000].get? 0 =
      some (Car.init 2 "Ford" "Fiesta" 500000) ∧
    (Car.init 2 "Ford" "Fiesta" 500000).price ≤
      (Buyer.init 2 "Maria" 3500000).balance ∧
    Dealership.sell_car ⟨[Car.init 2 "Ford" "Fiesta" 500000]⟩ 0
      (Buyer.init 2 "Maria" 3500000) =
      .ok (⟨[]⟩, Buyer.init 2 "Maria" 3000000,
        ⟨Buyer.init 2 "Maria" 3000000, Car.init 2 "Ford" "Fiesta" 500000⟩) :=
  ⟨by decide, by decide, by decide, by
    have h := (sell_car_success ⟨[Car.init 2 "Ford" "Fiesta" 500000]⟩ 0
      (Buyer.init 2 "Maria" 3500000) 0 (Car.init 2 "Ford" "Fiesta" 500000)
      (by decide) (by decide) (by decide)).1
    simpa using h⟩

/-- Claim C3: if the selector resolves to a car whose price strictly exceeds
the buyer's balance, `sell_car` fails with `InsufficientFunds`; in this
state-passing model the error result carries no new state, so the inventory
and the balance are exactly as before the call. -/
theorem sell_car_insufficient (d : Dealership) (i : Int) (b : Buyer)
    (j : Nat) (car : Car)
    (hj : pyIndex d.cars.length i = some j)
    (hcar : d.cars.get? j = some car)
    (hlt : b.balance < car.price) :
    d.sell_car i b = .error .insufficientFunds := by
  unfold Dealership.sell_car
  simp only [hj, hcar]
  rw [if_neg (show ¬ b.balance ≥ car.price by omega)]

/-- Witness for C3: the spec's Scenario A, a 3000000 car against a 2500000
balance. -/
theorem sell_car_insufficient_witness :
    pyIndex 1 0 = some 0 ∧
    [teslaS].get? 0 = some teslaS ∧
    alexander.balance < teslaS.price ∧
    Dealership.sell_car ⟨[teslaS]⟩ 0 alexander = .error .insufficientFunds :=
  ⟨by decide, by decide, by decide,
    sell_car_insufficient ⟨[teslaS]⟩ 0 alexander 0 teslaS
      (by decide) (by decide) (by decide)⟩

/-- Claim C4: a selector at or past the end of the inventory makes
`sell_car` fail with `notFound` (the re-raised `IndexError`); the error
result carries no new state, so nothing is mutated. -/
theorem sell_car_out_of_range (d : Dealership) (i : Int) (b : Buyer)
    (h : (d.cars.length : Int) ≤ i) :
    d.sell_car i b = .error .notFound := by
  have hnone : pyIndex d.cars.length i = none := by
    unfold pyIndex pyResolve
    rw [if_neg (show ¬ i < 0 by omega)]
    rw [if_neg (by omega)]
  unfold Dealership.sell_car
  simp only [hnone]

/-- Witness for C4: selector 5 against a one-car lot. -/
theorem sell_car_out_of_range_witness :
    ((Dealership.mk [teslaS]).cars.length : Int) ≤ 5 ∧
    Dealership.sell_car ⟨[teslaS]⟩ 5 maria = .error .notFound :=
  ⟨by decide, sell_car_out_of_range ⟨[teslaS]⟩ 5 maria (by decide)⟩

/-- Claim C9: a negative selector `s` with `-L ≤ s ≤ -1` on an inventory of
length `L` resolves, Python-style, to position `L + s`, and if the buyer's
balance covers that car's price the sale succeeds on that car. -/
theorem sell_car_negative_index (d : Dealership) (s : Int) (b : Buyer)
    (h1 : -(d.cars.length : Int) ≤ s) (h2 : s ≤ -1) :
    pyIndex d.cars.length s = some (s + (d.cars.length : Int)).toNat ∧
    ∀ car : Car, d.cars.get? (s + (d.cars.length : Int)).toNat = some car →
      car.price ≤ b.balance →
      d.sell_car s b = .ok
        (⟨d.cars.eraseIdx (s + (d.cars.length : Int)).toNat⟩,
         { b with balance := b.balance - car.price },
         ⟨{ b with balance := b.balance - car.price }, car⟩) := by
  have hidx : pyIndex d.cars.length s =
      some (s + (d.cars.length : Int)).toNat := by
    unfold pyIndex pyResolve
    rw [if_pos (show s < 0 by omega)]
    rw [if_pos (by constructor <;> omega)]
  exact ⟨hidx, fun car hcar hb => sell_car_eq_ok hidx hcar hb⟩

/-- Witness for C9: selector -1 on a two-car lot resolves to position 1 and
sells the Ford to Maria. -/
theorem sell_car_negative_index_witness :
    -(((Dealership.mk [teslaS, fordFiesta]).cars.length : Int)) ≤ -1 ∧
    (-1 : Int) ≤ -1 ∧
    Dealership.sell_car ⟨[teslaS, fordFiesta]⟩ (-1) maria = .ok
      (⟨[teslaS]⟩, { maria with balance := maria.balance - fordFiesta.price },
       ⟨{ maria with balance := maria.balance - fordFiesta.price },
        fordFiesta⟩) :=
  ⟨by decide, by decide, by
    have h := (sell_car_negative_index ⟨[teslaS, fordFiesta]⟩ (-1) maria
      (by decide) (by decide)).2 fordFiesta (by decide) (by decide)
    simpa using h⟩

/-- Claim C10: `decrease_balance` has no check that the amount is
non-negative; on an account with non-negative balance a strictly negative
amount passes the guard, so the call succeeds and the balance grows by the
amount's absolute value. -/
theorem decrease_balance_negative (b : Buyer) (a : Int)
    (hb : 0 ≤ b.balance) (ha : a < 0) :
    b.decrease_balance a = .ok { b with balance := b.balance - a } ∧
    b.balance - a = b.balance + |a| ∧
    b.balance < b.balance - a := by
  refine ⟨?_, ?_, by omega⟩
  · unfold Buyer.decrease_balance
    rw [if_neg (show ¬ a > b.balance by omega)]
  · rw [abs_of_neg ha]
    omega

/-- Witness for C10: debiting -700 credits the account with 700. -/
theorem decrease_balance_negative_witness :
    (0 : Int) ≤ ivan.balance ∧ (-700 : Int) < 0 ∧
    ivan.decrease_balance (-700) =
      .ok { ivan with balance := ivan.balance - (-700) } :=
  ⟨by decide, by decide,
    (decrease_balance_negative ivan (-700) (by decide) (by decide)).1⟩

theorem runDebits_nonneg (amounts : List Int) :
    ∀ b : Buyer, 0 ≤ b.balance → 0 ≤ (runDebits b amounts).balance := by
  induction amounts with
  | nil => exact fun b hb => hb
  | cons a rest ih =>
    intro b hb
    show 0 ≤ (runDebits b (a :: rest)).balance
    unfold runDebits Buyer.decrease_balance
    split_ifs with hc
    · exact ih b hb
    · exact ih _ (show 0 ≤ b.balance - a by omega)

/-- Claim C2: starting from a non-negative balance, the balance is
non-negative after every prefix of a sequence of debits; a debit larger
than the current balance fails with `InsufficientFunds` and leaves the
buyer unchanged, and a debit of at most the current balance succeeds and
decreases the balance by exactly that amount. -/
theorem decrease_balance_invariant (b : Buyer) (amounts : List Int)
    (hb : 0 ≤ b.balance) (ha : ∀ a ∈ amounts, 0 ≤ a) :
    (∀ pre suf, amounts = pre ++ suf → 0 ≤ (runDebits b pre).balance) ∧
    (∀ c : Buyer, ∀ a : Int, c.balance < a →
      c.decrease_balance a = .error .insufficientFunds ∧
      runDebits c [a] = c) ∧
    (∀ c : Buyer, ∀ a : Int, a ≤ c.balance →
      c.decrease_balance a = .ok { c with balance := c.balance - a }) := by
  refine ⟨fun pre _ _ => runDebits_nonneg pre b hb, ?_, ?_⟩
  · intro c a hca
    have hdec : c.decrease_balance a = .error .insufficientFunds := by
      unfold Buyer.decrease_balance
      rw [if_pos (show a > c.balance from hca)]
    refine ⟨hdec, ?_⟩
    unfold runDebits
    rw [hdec]
    rfl
  · intro c a hac
    unfold Buyer.decrease_balance
    rw [if_neg (show ¬ a > c.balance by omega)]

/-- Witness for C2: Alexander's 2500000 balance stays non-negative under
the debit sequence 2000000, 600000 (the second debit fails). -/
theorem decrease_balance_invariant_witness :
    (0 : Int) ≤ alexander.balance ∧
    (∀ a ∈ [(2000000 : Int), 600000], 0 ≤ a) ∧
    (∀ pre suf, [(2000000 : Int), 600000] = pre ++ suf →
      0 ≤ (runDebits alexander pre).balance) :=
  ⟨by decide, by decide,
    (decrease_balance_invariant alexander [2000000, 600000]
      (by decide) (by decide)).1⟩

theorem carsByPriceGo_eq_filter (m : Int) (l : List Car) :
    carsByPriceGo m l = l.filter (fun c => decide (m ≤ c.price)) := by
  induction l with
  | nil => rfl
  | cons c rest ih =>
    unfold carsByPriceGo
    by_cases hc : c.price ≥ m
    · rw [if_pos hc, ih, List.filter_cons_of_pos (by simpa using hc)]
    · rw [if_neg hc, ih, List.filter_cons_of_neg (by simpa using hc)]

/-- Claim C8: `cars_by_price` is a pure read: it returns exactly the cars
of the inventory whose price is at least `m`, as a sublist of the
inventory and hence in inventory order, touching nothing. -/
theorem cars_by_price_spec (d : Dealership) (m : Int) :
    d.cars_by_price m = d.cars.filter (fun c => decide (m ≤ c.price)) ∧
    List.Sublist (d.cars_by_price m) d.cars ∧
    ∀ c : Car, c ∈ d.cars_by_price m ↔ c ∈ d.cars ∧ m ≤ c.price := by
  have h : d.cars_by_price m =
      d.cars.filter (fun c => decide (m ≤ c.price)) :=
    carsByPriceGo_eq_filter m d.cars
  refine ⟨h, ?_, ?_⟩
  · rw [h]
    exact List.filter_sublist _
  · intro c
    rw [h]
    simp [List.mem_filter]

theorem pyIndex_zero_none (i : Int) : pyIndex 0 i = none := by
  unfold pyIndex pyResolve
  by_cases h0 : i < 0
  · rw [if_pos h0, if_neg (by omega)]
  · rw [if_neg h0, if_neg (by omega)]

theorem sell_car_nil (i : Int) (b : Buyer) :
    Dealership.sell_car ⟨[]⟩ i b = .error .notFound := by
  unfold Dealership.sell_car
  simp only [List.length_nil, pyIndex_zero_none]

theorem runRace_nil (bs : List Buyer) :
    runRace ⟨[]⟩ bs = (⟨[]⟩, bs.map fun b => (b, .error .notFound)) := by
  induction bs with
  | nil => rfl
  | cons b rest ih =>
    unfold runRace
    simp only [sell_car_nil, ih, List.map_cons]

/-- Claim C5: N calls at selector 0 against a one-car lot by buyers who all
can afford the car, executed in the serial order the dealership lock
imposes: the first caller is debited the price and gets the contract for
that car, every other caller gets `notFound` unchanged, and the lot ends
empty (length decreased by exactly one). -/
theorem sell_car_race (c : Car) (b0 : Buyer) (rest : List Buyer)
    (hfunds : ∀ b ∈ b0 :: rest, c.price ≤ b.balance)
    (hdistinct : ((b0 :: rest).map Buyer.id).Nodup) :
    runRace ⟨[c]⟩ (b0 :: rest) =
      (⟨[]⟩,
       ({ b0 with balance := b0.balance - c.price },
        .ok ⟨{ b0 with balance := b0.balance - c.price }, c⟩) ::
       rest.map fun b => (b, .error .notFound)) := by
  have hb0 : c.price ≤ b0.balance := hfunds b0 (by simp)
  have hsell : Dealership.sell_car ⟨[c]⟩ 0 b0 = .ok (⟨[]⟩,
      { b0 with balance := b0.balance - c.price },
      ⟨{ b0 with balance := b0.balance - c.price }, c⟩) :=
    @sell_car_eq_ok ⟨[c]⟩ 0 b0 0 c rfl rfl hb0
  unfold runRace
  simp only [hsell, runRace_nil, List.map_cons]

/-- Witness for C5: Maria and Ivan race for the sole Ford; Maria (first in
the serial order) gets it, Ivan sees `notFound`. -/
theorem sell_car_race_witness :
    (∀ b ∈ [maria, ivan], fordFiesta.price ≤ b.balance) ∧
    ([maria, ivan].map Buyer.id).Nodup ∧
    runRace ⟨[fordFiesta]⟩ [maria, ivan] =
      (⟨[]⟩,
       ({ maria with balance := maria.balance - fordFiesta.price },
        .ok ⟨{ maria with balance := maria.balance - fordFiesta.price },
          fordFiesta⟩) ::
       [ivan].map fun b => (b, .error .notFound)) :=
  ⟨by decide, by decide,
    sell_car_race fordFiesta maria [ivan] (by decide) (by decide)⟩

theorem sell_car_ok_inv {d : Dealership} {i : Int} {b : Buyer}
    {d2 : Dealership} {b2 : Buyer} {ct : Contract}
    (h : d.sell_car i b = .ok (d2, b2, ct)) :
    (∀ x ∈ d2.cars, x ∈ d.cars) ∧ ct.car ∈ d.cars ∧
    d2.cars.length + 1 = d.cars.length := by
  unfold Dealership.sell_car at h
  split at h
  · exact absurd h (by simp)
  next j hj =>
    split at h
    · exact absurd h (by simp)
    next car hcar =>
      have hlt : j < d.cars.length := pyIndex_some_lt hj
      have hmem : car ∈ d.cars := List.get?_mem hcar
      by_cases hbp : b.balance ≥ car.price
      · rw [if_pos hbp] at h
        unfold Buyer.decrease_balance at h
        rw [if_neg (show ¬ car.price > b.balance by omega)] at h
        simp only [Except.ok.injEq, Prod.mk.injEq] at h
        obtain ⟨h1, _, h3⟩ := h
        subst h1
        subst h3
        exact ⟨fun x hx => (List.eraseIdx_sublist d.cars j).subset hx,
          hmem, List.length_eraseIdx_add_one hlt⟩
      · rw [if_neg hbp] at h
        exact absurd h (by simp)

theorem sell_car_notFound_inv {d : Dealership} {i : Int} {b : Buyer}
    (h : d.sell_car i b = .error .notFound) :
    pyIndex d.cars.length i = none := by
  by_contra hne
  obtain ⟨j, hj⟩ := Option.ne_none_iff_exists'.mp hne
  have hlt : j < d.cars.length := pyIndex_some_lt hj
  obtain ⟨car, hcar⟩ : ∃ car, d.cars.get? j = some car :=
    ⟨_, List.get?_eq_get hlt⟩
  unfold Dealership.sell_car at h
  simp only [hj, hcar] at h
  by_cases hbp : b.balance ≥ car.price
  · rw [if_pos hbp] at h
    unfold Buyer.decrease_balance at h
    rw [if_neg (show ¬ car.price > b.balance by omega)] at h
    simp at h
  · rw [if_neg hbp] at h
    simp at h

theorem sell_car_notFound_of_none {d : Dealership} {i : Int} (b : Buyer)
    (h : pyIndex d.cars.length i = none) :
    d.sell_car i b = .error .notFound := by
  unfold Dealership.sell_car
  simp only [h]

theorem runSellsC_length (ops : List (Int × Buyer)) :
    ∀ d : Dealership,
      (runSellsC d ops).1.cars.length ≤ d.cars.length := by
  induction ops with
  | nil => exact fun d => le_refl _
  | cons p rest ih =>
    intro d
    obtain ⟨i, b⟩ := p
    show (runSellsC d ((i, b) :: rest)).1.cars.length ≤ d.cars.length
    unfold runSellsC
    cases hsell : d.sell_car i b with
    | error e =>
      simp only
      exact ih d
    | ok t =>
      obtain ⟨d2, b2, ct⟩ := t
      have hinv := sell_car_ok_inv hsell
      simp only
      have := ih d2
      omega

theorem runSellsC_not_mem (ops : List (Int × Buyer)) :
    ∀ (d : Dealership) (c : Car), c ∉ d.cars →
      c ∉ (runSellsC d ops).1.cars ∧
      ∀ ct ∈ (runSellsC d ops).2, ct.car ≠ c := by
  induction ops with
  | nil =>
    intro d c hc
    exact ⟨hc, by intro ct hct; simp [runSellsC] at hct⟩
  | cons p rest ih =>
    intro d c hc
    obtain ⟨i, b⟩ := p
    show c ∉ (runSellsC d ((i, b) :: rest)).1.cars ∧ _
    unfold runSellsC
    cases hsell : d.sell_car i b with
    | error e =>
      simp only
      exact ih d c hc
    | ok t =>
      obtain ⟨d2, b2, ct⟩ := t
      have hinv := sell_car_ok_inv hsell
      have hc2 : c ∉ d2.cars := fun hx => hc (hinv.1 c hx)
      have hctc : ct.car ≠ c := fun he => hc (he ▸ hinv.2.1)
      obtain ⟨hm, hcts⟩ := ih d2 c hc2
      simp only
      refine ⟨hm, ?_⟩
      intro ct2 hct2
      rcases List.mem_cons.mp hct2 with he | hmem
      · exact he ▸ hctc
      · exact hcts ct2 hmem

/-- Claim C7: once `sell_car` has failed with `notFound` on a selector,
any further sequence of `sell_car` calls leaves that selector failing with
`notFound` (sales only shrink the inventory), and a car absent from the
inventory never reappears and is never the subject of a later contract. -/
theorem sell_car_stale_selector (d : Dealership) (i : Int) (b0 : Buyer)
    (ops : List (Int × Buyer))
    (hfail : d.sell_car i b0 = .error .notFound) :
    (∀ b1 : Buyer,
      (runSellsC d ops).1.sell_car i b1 = .error .notFound) ∧
    ∀ c : Car, c ∉ d.cars →
      c ∉ (runSellsC d ops).1.cars ∧
      ∀ ct ∈ (runSellsC d ops).2, ct.car ≠ c := by
  have hnone := sell_car_notFound_inv hfail
  exact ⟨fun b1 => sell_car_notFound_of_none b1
      (pyIndex_none_of_le hnone (runSellsC_length ops d)),
    fun c hc => runSellsC_not_mem ops d c hc⟩

/-- Witness for C7: selector 3 fails on a one-car lot, and still fails
after Maria buys the car at selector 0. -/
theorem sell_car_stale_selector_witness :
    Dealership.sell_car ⟨[fordFiesta]⟩ 3 alexander = .error .notFound ∧
    (runSellsC ⟨[fordFiesta]⟩ [(0, maria)]).1.sell_car 3 ivan =
      .error .notFound :=
  ⟨rfl,
    (sell_car_stale_selector ⟨[fordFiesta]⟩ 3 alexander [(0, maria)]
      rfl).1 ivan⟩

/-- Counterexample to claim C6: construction validates nothing.
`Buyer.__init__` writes the backing fields directly, so a buyer with an
empty name and a negative balance is created, and `Car.__init__` accepts a
negative price: entities the claim says can never exist do exist. -/
theorem construction_unvalidated_cex :
    (Buyer.init 9 "" (-5)).name = "" ∧
    (Buyer.init 9 "" (-5)).balance < 0 ∧
    (Car.init 9 "Tesla" "Model S" (-100)).price < 0 :=
  ⟨rfl, by decide, by decide⟩

/-- Claim C6 as amended: the constructors store `name`, `balance` and
`price` verbatim with no validation, so invalid entities can exist;
validation happens only on later assignment through the `name` and
`balance` property setters, which reject an empty name and a negative
balance with `ValueError` and otherwise set the field. -/
theorem constructors_store_setters_validate (id : Nat) (nm mk md : String)
    (bal pr : Int) (b : Buyer) (v : String) (w : Int) :
    (Buyer.init id nm bal).name = nm ∧
    (Buyer.init id nm bal).balance = bal ∧
    (Car.init id mk md pr).price = pr ∧
    (v = "" → b.setName v = .error "Name cannot be empty") ∧
    (v ≠ "" → b.setName v = .ok { b with name := v }) ∧
    (w < 0 → b.setBalance w = .error "Balance cannot be negative") ∧
    (0 ≤ w → b.setBalance w = .ok { b with balance := w }) := by
  refine ⟨rfl, rfl, rfl, ?_, ?_, ?_, ?_⟩
  · intro hv
    unfold Buyer.setName
    rw [if_pos hv]
  · intro hv
    unfold Buyer.setName
    rw [if_neg hv]
  · intro hw
    unfold Buyer.setBalance
    rw [if_pos hw]
  · intro hw
    unfold Buyer.setBalance
    rw [if_neg (show ¬ w < 0 by omega)]

/-- Witness for the amended C6: a concrete constructor call stores its
arguments and a concrete setter call rejects a negative balance. -/
theorem constructors_store_setters_validate_witness :
    (Buyer.init 4 "Olena" 100).name = "Olena" ∧
    (Buyer.init 4 "Olena" 100).setBalance (-3) =
      .error "Balance cannot be negative" :=
  ⟨(constructors_store_setters_validate 4 "Olena" "VW" "Golf" 100 7
      (Buyer.init 4 "Olena" 100) "X" (-3)).1,
    (constructors_store_setters_validate 4 "Olena" "VW" "Golf" 100 7
      (Buyer.init 4 "Olena" 100) "X" (-3)).2.2.2.2.2.1 (by decide)⟩

end CarMarket
